import Mathlib

/-!
Verification of the search/TT/protocol core of `src/mini_uci_engine.py`
(with the evaluation also mirrored in `engines/stoic_child/egine.py`).

The chess rules engine (python-chess) is an external collaborator: it is
abstracted as a `Rules` structure supplying legal moves, move application,
capture detection, terminal detection, hashing and static evaluation.
Everything else (negamax, the transposition table, move ordering, the
best-move fallback, the command loop's error behaviour and the handler
action sequences) is translated directly from the Python source.
-/

namespace MiniUci

/-! ### Evaluation (`evaluate`, lines 37-52) -/

inductive PieceType where
  | PAWN | KNIGHT | BISHOP | ROOK | QUEEN | KING
deriving DecidableEq

/-- `PIECE_VALUES` dictionary, lines 18-25. -/
def PIECE_VALUES : PieceType → Int
  | .PAWN => 100
  | .KNIGHT => 320
  | .BISHOP => 330
  | .ROOK => 500
  | .QUEEN => 900
  | .KING => 20000

/-- `PST` dictionary, lines 28-35: every table is `[0]*64`. -/
def PST : PieceType → List Int := fun _ => List.replicate 64 0

/-- A `chess.Piece`: a piece type and a colour (`true` = `chess.WHITE`). -/
structure Piece where
  piece_type : PieceType
  color : Bool
deriving DecidableEq

/-- The part of a `chess.Board` that `evaluate` reads: the piece placement
(`board.piece_at`, indexed by the squares `0..63`) and `board.turn`. -/
structure EvalBoard where
  piece_at : Nat → Option Piece
  turn : Bool

/-- `evaluate(board)`, lines 37-52: signed material + PST summed over
`chess.SQUARES`, then negated when Black is to move. -/
def evaluate (board : EvalBoard) : Int :=
  let score := (List.range 64).foldl
    (fun s sq =>
      match board.piece_at sq with
      | some piece =>
          let val := PIECE_VALUES piece.piece_type
          let pst_val := (PST piece.piece_type).getD sq 0
          if piece.color then s + (val + pst_val) else s - (val + pst_val)
      | none => s) 0
  if board.turn then score else -score

/-! ### Transposition table (lines 54-66) -/

/-- Entry types, lines 55-57: `EXACT = 0`, `ALPHA = 1`, `BETA = 2`. -/
inductive Flag where
  | EXACT | ALPHA | BETA
deriving DecidableEq

/-- `TTEntry`, lines 59-64. -/
structure TTEntry (Move : Type) where
  depth : Nat
  score : Int
  flag : Flag
  best_move : Option Move
deriving DecidableEq

/-- `transposition_table`: a Python dict from hash keys to entries. -/
abbrev TT (Move : Type) : Type := Nat → Option (TTEntry Move)

def ttEmpty (Move : Type) : TT Move := fun _ => none

/-- `transposition_table[key] = entry`: unconditional replacement. -/
def ttStore {Move : Type} (tt : TT Move) (key : Nat) (e : TTEntry Move) : TT Move :=
  fun k => if k = key then some e else tt k

/-! ### External rules collaborator -/

/-- The operations `negamax`/`search_root` require from python-chess:
`get_tt_key`, `board.legal_moves`, `board.is_capture`, `board.push`
(as a pure child-position map), `board.is_game_over`, and `evaluate`. -/
structure Rules (Pos Move : Type) where
  key : Pos → Nat
  legal_moves : Pos → List Move
  is_capture : Pos → Move → Bool
  child : Pos → Move → Pos
  is_game_over : Pos → Bool
  eval : Pos → Int

/-! ### Negamax search core (`negamax`, lines 97-142) -/

/-- The TT probe at the top of `negamax`, lines 101-110: returns
`some s` when the probe returns early with score `s`, `none` on
fall-through. -/
def probeTT {Move : Type} (tt : TT Move) (key : Nat) (depth : Nat)
    (alpha beta : Int) : Option Int :=
  match tt key with
  | none => none
  | some entry =>
    if entry.depth ≥ depth then
      if entry.flag = Flag.EXACT then some entry.score
      else if entry.flag = Flag.ALPHA ∧ entry.score ≤ alpha then some alpha
      else if entry.flag = Flag.BETA ∧ entry.score ≥ beta then some beta
      else none
    else none

/-- `moves.sort(key=lambda m: board.is_capture(m), reverse=True)`,
line 120 (and line 166): Python's sort is stable, so this is the stable
partition putting captures first. -/
def sortCaptures {Move : Type} (isc : Move → Bool) (ms : List Move) : List Move :=
  ms.filter isc ++ ms.filter (fun m => !(isc m))

/-- Result of one `negamax` call: return value, the transposition table
and node counter (globals in the source, threaded as state here), plus a
ghost field `srdepth` recording how many stack frames the call used
(1 for a call that does not recurse); it is instrumentation for the
recursion-depth bound and influences nothing else. -/
structure SR (Move : Type) where
  score : Int
  tt : TT Move
  nodes : Nat
  srdepth : Nat

/-- State of the `for mv in moves` loop of `negamax`, lines 122-132:
`max_score`, `best_local`, the mutated `alpha`, the two globals, and the
ghost maximum of the child calls' `srdepth`. -/
structure LoopRes (Move : Type) where
  max_score : Int
  best_local : Option Move
  alpha : Int
  tt : TT Move
  nodes : Nat
  msd : Nat

/-- The move loop of `negamax`, lines 122-132. `rec mv a b tt n` is
`board.push(mv); negamax(board, depth-1, a, b); board.pop()` (the
recursion at one depth less, on the child of the current position). -/
def negaLoop {Move : Type} (rec : Move → Int → Int → TT Move → Nat → SR Move)
    (beta : Int) :
    List Move → Int → Option Move → Int → TT Move → Nat → Nat → LoopRes Move
  | [], max_score, best_local, alpha, tt, nodes, msd =>
      ⟨max_score, best_local, alpha, tt, nodes, msd⟩
  | mv :: rest, max_score, best_local, alpha, tt, nodes, msd =>
      let r := rec mv (-beta) (-alpha) tt nodes
      let score := -r.score
      let max_score2 := if score > max_score then score else max_score
      let best2 := if score > max_score then some mv else best_local
      let alpha2 := max alpha score
      let msd2 := max msd r.srdepth
      if alpha2 ≥ beta then ⟨max_score2, best2, alpha2, r.tt, r.nodes, msd2⟩
      else negaLoop rec beta rest max_score2 best2 alpha2 r.tt r.nodes msd2

/-- `negamax(board, depth, alpha, beta)`, lines 97-142.  Faithful points:
the TT probe may cut off at any depth; `depth == 0 or is_game_over()`
returns the static evaluation without storing; the move loop updates
`alpha` in place; the stored flag is classified against the *mutated*
`alpha` (line 136, the source's own comment: "careful: alpha already
changed"); the entry is stored unconditionally at the end of the full
path and `max_score` (initialised to `-9999999`) is returned. -/
def negamax {Pos Move : Type} (R : Rules Pos Move) :
    Nat → Pos → Int → Int → TT Move → Nat → SR Move
  | d, board, alpha, beta, tt, nodes0 =>
    let nodes := nodes0 + 1
    let key := R.key board
    match probeTT tt key d alpha beta with
    | some s => ⟨s, tt, nodes, 1⟩
    | none =>
      match d with
      | 0 => ⟨R.eval board, tt, nodes, 1⟩
      | d' + 1 =>
        if R.is_game_over board then ⟨R.eval board, tt, nodes, 1⟩
        else
          let moves := sortCaptures (R.is_capture board) (R.legal_moves board)
          let res := negaLoop (fun mv a b t n => negamax R d' (R.child board mv) a b t n)
                       beta moves (-9999999) none alpha tt nodes 0
          let flag := if res.max_score ≤ res.alpha then Flag.ALPHA
                      else if res.max_score ≥ beta then Flag.BETA
                      else Flag.EXACT
          let tt2 := ttStore res.tt key ⟨d' + 1, res.max_score, flag, res.best_local⟩
          ⟨res.max_score, tt2, res.nodes, 1 + res.msd⟩

/-! ### Root move ordering (`search_root`, lines 158-166) -/

/-- The root move ordering of `search_root`, lines 160-166:
`tt_move` is the TT hint (`None` when no entry); if it is present and a
member of `moves`, it is removed and re-inserted at index 0; then the
whole list is stably sorted with captures first (line 166 — note the
sort runs *after* the hint has been put in front). -/
def order_root {Move : Type} [DecidableEq Move] (isc : Move → Bool)
    (moves : List Move) (tt_move : Option Move) : List Move :=
  let ms := match tt_move with
    | some h => if h ∈ moves then h :: moves.erase h else moves
    | none => moves
  sortCaptures isc ms

/-! ### Best-move emission (`think_thread_fn`, lines 198-211) -/

/-- The best-move payload printed by `think_thread_fn`, lines 204-210:
`best` is what `search_root` returned; when it is `None` and the legal
move list is nonempty, `random.choice(moves)` substitutes a legal move
(the random draw is modelled by an arbitrary index `r`, reduced modulo
the list length); `none` stands for the `'0000'` null-move encoding. -/
def think_emit {Move : Type} (best : Option Move) (legal : List Move)
    (r : Nat) : Option Move :=
  match best with
  | some b => some b
  | none =>
    match legal with
    | [] => none
    | _ :: _ => legal.get? (r % legal.length)

/-! ### Command loop error behaviour (`uci_loop`, lines 213-312)

The `position` handler (lines 257-280) replays the move list with
`board.push_san(m) if len(m) > 4 else board.push_uci(m)` and there is no
`try/except` around the body of the `while` loop, so a malformed or
illegal move raises an exception that propagates out of `uci_loop` and
terminates the session. -/

/-- One application of a wire-format move to the board;
`none` models the `ValueError`/`IllegalMoveError` raised by
`board.push_san`/`board.push_uci` on a malformed or illegal move. -/
def MoveApply (B : Type) : Type := B → String → Option B

/-- `for m in moves: board.push_...(m)`, lines 266-267 and 279-280:
returns the board after the last successfully applied move together
with a flag saying whether an exception was raised (in which case the
remaining moves were not applied). -/
def push_moves {B : Type} (ap : MoveApply B) : B → List String → B × Bool
  | b, [] => (b, false)
  | b, m :: ms =>
    match ap b m with
    | some b2 => push_moves ap b2 ms
    | none => (b, true)

/-- The commands of `uci_loop` relevant to the error-handling model:
`isready` (replies `readyok`), `position` (sets the board to `base` —
the start position or the given FEN — then replays `moves`), and any
other ignored line. -/
inductive Cmd (B : Type) where
  | isready
  | position (base : B) (moves : List String)
  | other

/-- The dispatch of `uci_loop` for those commands: processes commands in
order, collecting the emitted reply lines; an exception during a
`position` replay is uncaught, so the loop terminates at once — the
board keeps the last successfully applied state, no reply is emitted
for the failing command, and no later command is processed. -/
def uci_run {B : Type} (ap : MoveApply B) : B → List (Cmd B) → B × List String
  | b, [] => (b, [])
  | b, Cmd.isready :: cs =>
      let r := uci_run ap b cs
      (r.1, "readyok" :: r.2)
  | _, Cmd.position base ms :: cs =>
      let pr := push_moves ap base ms
      if pr.2 then (pr.1, [])
      else uci_run ap pr.1 cs
  | b, Cmd.other :: cs => uci_run ap b cs

/-! ### Handler action traces (`uci_loop`, lines 252-308)

For the concurrency claims the relevant content of each handler is the
sequence of actions it performs on the shared search state, in program
order. -/

/-- The primitive actions the handlers perform on shared state:
`set_stop` is `stop_search = True`, `join_thread` is
`think_thread.join()`, `clear_tt` is `transposition_table.clear()`,
`reset_board` is `board.reset()`, `spawn_think` starts a new think
thread. -/
inductive Act where
  | set_stop | join_thread | clear_tt | reset_board | spawn_think
deriving DecidableEq

/-- `ucinewgame` handler, lines 252-255: clears the TT and resets the
board — with no cancellation and no join of a running think thread. -/
def handler_ucinewgame : List Act := [Act.clear_tt, Act.reset_board]

/-- `go` handler, lines 290-296 (state actions only): when a think
thread is alive it sets the stop flag and joins before spawning the
next thread. -/
def handler_go (think_alive : Bool) : List Act :=
  (if think_alive then [Act.set_stop, Act.join_thread] else []) ++ [Act.spawn_think]

/-- `stop` handler, lines 298-301: sets the stop flag, then joins when a
thread object exists. -/
def handler_stop (has_thread : Bool) : List Act :=
  Act.set_stop :: (if has_thread then [Act.join_thread] else [])

/-- `quit` handler, lines 304-308: same actions as `stop`, then the loop
breaks. -/
def handler_quit (has_thread : Bool) : List Act :=
  Act.set_stop :: (if has_thread then [Act.join_thread] else [])

/-! ### Concrete rules instances used by individual claims -/

/-- A two-position game for the bound-classification claim: position `0`
has the single quiet reply `10` leading to position `10`, where the side
that moved is up 5 (the child, to move, evaluates to `-5`). -/
def R1 : Rules Nat Nat :=
  ⟨fun p => p,
   fun p => if p = 0 then [10] else [],
   fun _ _ => false,
   fun p mv => p + mv,
   fun _ => false,
   fun p => if p = 0 then 0 else -5⟩

/-- The same two-position game, for the TT-store claim. -/
def R3 : Rules Nat Nat :=
  ⟨fun p => p,
   fun p => if p = 0 then [10] else [],
   fun _ _ => false,
   fun p mv => p + mv,
   fun _ => false,
   fun p => if p = 0 then 0 else -5⟩

/-- A game for the TT-cutoff claim: every position is a leaf of value 0. -/
def RW : Rules Nat Nat :=
  ⟨fun p => p, fun _ => [], fun _ _ => false, fun p _ => p, fun _ => false, fun _ => 0⟩

/-- A table holding an `EXACT` depth-2 entry of score 7 for key 0. -/
def ttW : TT Nat := fun k => if k = 0 then some ⟨2, 7, Flag.EXACT, none⟩ else none

/-- A game whose positions are not game-over yet have no legal moves
(unreachable with python-chess, where an empty move list implies game
over), with static evaluation 7 everywhere. -/
def R7 : Rules Nat Nat :=
  ⟨fun p => p, fun _ => [], fun _ _ => false, fun p _ => p, fun _ => false, fun _ => 7⟩

/-- One application of a wire move used by the command-loop claims:
`"e2e4"` is legal everywhere (advancing the board state by one), every
other string raises. -/
def apC6 : MoveApply Nat := fun b m => if m = "e2e4" then some (b + 1) else none

/-! ### Helper lemmas about `negamax` -/

/-- The probe returns the stored score when the entry is deep enough and
marked `EXACT` (lines 104-106). -/
lemma probeTT_exact {Move : Type} (tt : TT Move) (key d : Nat) (alpha beta : Int)
    (e : TTEntry Move) (he : tt key = some e) (hd : d ≤ e.depth)
    (hf : e.flag = Flag.EXACT) :
    probeTT tt key d alpha beta = some e.score := by
  simp [probeTT, he, hd, hf]

/-- The probe returns `alpha` on a deep-enough `ALPHA` entry whose score
is at most `alpha` (lines 107-108). -/
lemma probeTT_alpha {Move : Type} (tt : TT Move) (key d : Nat) (alpha beta : Int)
    (e : TTEntry Move) (he : tt key = some e) (hd : d ≤ e.depth)
    (hf : e.flag = Flag.ALPHA) (hs : e.score ≤ alpha) :
    probeTT tt key d alpha beta = some alpha := by
  simp [probeTT, he, hd, hf, hs]

/-- The probe returns `beta` on a deep-enough `BETA` entry whose score
is at least `beta` (lines 109-110). -/
lemma probeTT_beta {Move : Type} (tt : TT Move) (key d : Nat) (alpha beta : Int)
    (e : TTEntry Move) (he : tt key = some e) (hd : d ≤ e.depth)
    (hf : e.flag = Flag.BETA) (hs : beta ≤ e.score) :
    probeTT tt key d alpha beta = some beta := by
  simp [probeTT, he, hd, hf, hs]

/-- Closed form of a `negamax` call that reaches the move loop: no TT
cutoff, positive depth, position not game-over. -/
lemma negamax_full {Pos Move : Type} (R : Rules Pos Move) (d' : Nat) (P : Pos)
    (alpha beta : Int) (tt : TT Move) (n : Nat)
    (hp : probeTT tt (R.key P) (d' + 1) alpha beta = none)
    (hg : R.is_game_over P = false) :
    negamax R (d' + 1) P alpha beta tt n =
      (let res := negaLoop (fun mv a b t nn => negamax R d' (R.child P mv) a b t nn)
          beta (sortCaptures (R.is_capture P) (R.legal_moves P)) (-9999999) none alpha tt (n + 1) 0
       let flag := if res.max_score ≤ res.alpha then Flag.ALPHA
                   else if res.max_score ≥ beta then Flag.BETA else Flag.EXACT
       (⟨res.max_score, ttStore res.tt (R.key P) ⟨d' + 1, res.max_score, flag, res.best_local⟩,
        res.nodes, 1 + res.msd⟩ : SR Move)) := by
  rw [negamax.eq_def]
  dsimp only
  rw [hp]
  simp [hg]

/-- The `msd` field of the move loop is bounded by any bound on the
`srdepth` of the recursive calls. -/
lemma negaLoop_msd_le {Move : Type} (rec : Move → Int → Int → TT Move → Nat → SR Move)
    (beta : Int) (k : Nat) (hrec : ∀ mv a b t nn, (rec mv a b t nn).srdepth ≤ k) :
    ∀ (ms : List Move) (mx : Int) (bl : Option Move) (alpha : Int) (tt : TT Move)
      (n msd : Nat), msd ≤ k → (negaLoop rec beta ms mx bl alpha tt n msd).msd ≤ k := by
  intro ms
  induction ms with
  | nil => intro mx bl alpha tt n msd h; simpa [negaLoop] using h
  | cons mv rest ih =>
    intro mx bl alpha tt n msd h
    rw [negaLoop]
    split
    · exact max_le h (hrec mv (-beta) (-alpha) tt n)
    · exact ih _ _ _ _ _ _ (max_le h (hrec mv (-beta) (-alpha) tt n))

/-! ### Claims -/

/-- Claim C10: the static evaluation is a pure function of the board and
antisymmetric in the side to move — for every fixed piece placement, the
score with White to move is the negation of the score for the same
placement with Black to move. -/
theorem C10_evaluate_turn_antisymmetric (pa : Nat → Option Piece) :
    evaluate ⟨pa, true⟩ = -evaluate ⟨pa, false⟩ := by
  simp [evaluate]

/-- Claim C1 (evidence of the code bug): `negamax` classifies the stored
flag against the alpha mutated during the move loop (line 136), not the
original alpha — so a depth-1 search from position 0 of `R1` with window
`(-100, 100)`, whose best score 5 lies strictly between them and should
be stored `EXACT` per the claim, is stored with flag `ALPHA` (UPPER). -/
theorem C1_flag_uses_mutated_alpha :
    (negamax R1 1 0 (-100) 100 (ttEmpty Nat) 0).tt 0
      = some ⟨1, 5, Flag.ALPHA, some 10⟩ ∧ (-100 : Int) < 5 ∧ (5 : Int) < 100 := by
  refine ⟨by decide, by decide, by decide⟩

/-- Claim C3 counterexample: a depth-0 invocation of `negamax` (lines
112-113) returns the static evaluation without storing anything, so
after `negamax(P, 0, -100, 100)` on an empty table there is still no
entry for P's key — refuting "every return path stores a TT entry". -/
theorem C3_counterexample_depth0_no_store :
    (negamax R3 0 0 (-100) 100 (ttEmpty Nat) 0).tt 0 = none := by decide

/-- Claim C7 counterexample: with `R7` (no legal moves, not game over,
evaluation 7 everywhere), `negamax` at depth 1 returns the sentinel
`-9999999`, not the static evaluation, refuting the claim. -/
theorem C7_counterexample_sentinel_not_eval :
    (negamax R7 1 0 (-100) 100 (ttEmpty Nat) 0).score = -9999999
      ∧ R7.eval 0 = 7 := by
  refine ⟨by decide, by decide⟩

/-- Claim C2: with bounds `alpha < beta`, a stored entry for the
position's key of depth at least `d` makes `negamax` return immediately
— the stored score on an `EXACT` flag, `alpha` on an `ALPHA` (UPPER)
flag whose score is at most `alpha`, `beta` on a `BETA` (LOWER) flag
whose score is at least `beta` — leaving the table untouched and
visiting exactly one node (so no recursion into children, which would
increment the node counter further). -/
theorem C2_tt_cutoff {Pos Move : Type} (R : Rules Pos Move) (d : Nat) (P : Pos)
    (alpha beta : Int) (tt : TT Move) (n : Nat) (e : TTEntry Move)
    (he : tt (R.key P) = some e) (hd : d ≤ e.depth) (hab : alpha < beta) :
    (e.flag = Flag.EXACT → negamax R d P alpha beta tt n = ⟨e.score, tt, n + 1, 1⟩) ∧
    (e.flag = Flag.ALPHA → e.score ≤ alpha →
      negamax R d P alpha beta tt n = ⟨alpha, tt, n + 1, 1⟩) ∧
    (e.flag = Flag.BETA → beta ≤ e.score →
      negamax R d P alpha beta tt n = ⟨beta, tt, n + 1, 1⟩) := by
  clear hab
  refine ⟨fun hf => ?_, fun hf hs => ?_, fun hf hs => ?_⟩
  · rw [negamax.eq_def]; dsimp only; rw [probeTT_exact tt (R.key P) d alpha beta e he hd hf]
  · rw [negamax.eq_def]; dsimp only; rw [probeTT_alpha tt (R.key P) d alpha beta e he hd hf hs]
  · rw [negamax.eq_def]; dsimp only; rw [probeTT_beta tt (R.key P) d alpha beta e he hd hf hs]

/-- Witness for C2: `ttW` holds the depth-2 `EXACT` entry of score 7 for
key 0, and `negamax` at depth 1 with window `(0, 10)` returns it at once. -/
theorem C2_tt_cutoff_witness :
    ttW (RW.key 0) = some ⟨2, 7, Flag.EXACT, none⟩ ∧
    negamax RW 1 0 0 10 ttW 0 = ⟨7, ttW, 1, 1⟩ :=
  ⟨rfl, (C2_tt_cutoff RW 1 0 0 10 ttW 0 ⟨2, 7, Flag.EXACT, none⟩ rfl (by decide)
    (by decide)).1 rfl⟩

/-- Claim C3 (amended): a complete TT entry `{depth, score, flag,
best_move}` is stored for P's key — replacing any prior entry — exactly
on the full-search path, i.e. when the probe yields no cutoff, the depth
is positive and the position is not game-over; TT-cutoff and
depth-0/terminal returns store nothing (see the counterexample). -/
theorem C3_store_on_full_path {Pos Move : Type} (R : Rules Pos Move) (d' : Nat)
    (P : Pos) (alpha beta : Int) (tt : TT Move) (n : Nat)
    (hp : probeTT tt (R.key P) (d' + 1) alpha beta = none)
    (hg : R.is_game_over P = false) :
    ∃ fl bm, (negamax R (d' + 1) P alpha beta tt n).tt (R.key P)
      = some ⟨d' + 1, (negamax R (d' + 1) P alpha beta tt n).score, fl, bm⟩ := by
  rw [negamax_full R d' P alpha beta tt n hp hg]
  set res := negaLoop (fun mv a b t nn => negamax R d' (R.child P mv) a b t nn)
      beta (sortCaptures (R.is_capture P) (R.legal_moves P)) (-9999999) none alpha tt (n + 1) 0
    with hres
  refine ⟨if res.max_score ≤ res.alpha then Flag.ALPHA
          else if res.max_score ≥ beta then Flag.BETA else Flag.EXACT, res.best_local, ?_⟩
  simp [ttStore]

/-- Witness for C3: on `R3` at depth 1 from position 0 the probe misses
and the stored entry carries the returned score. -/
theorem C3_store_on_full_path_witness :
    probeTT (ttEmpty Nat) (R3.key 0) 1 (-100) 100 = none ∧
    ∃ fl bm, (negamax R3 1 0 (-100) 100 (ttEmpty Nat) 0).tt (R3.key 0)
      = some ⟨1, (negamax R3 1 0 (-100) 100 (ttEmpty Nat) 0).score, fl, bm⟩ :=
  ⟨rfl, C3_store_on_full_path R3 0 0 (-100) 100 (ttEmpty Nat) 0 rfl rfl⟩

/-- Claim C7 (amended): in `negamax` with positive depth on a
non-game-over position that the probe does not cut off, an empty legal
move list makes the call return the sentinel `-9999999` (the initial
`max_score`), not the static evaluation; with python-chess this branch
is unreachable, since an empty legal-move list implies game over. -/
theorem C7_empty_moves_sentinel {Pos Move : Type} (R : Rules Pos Move) (d' : Nat)
    (P : Pos) (alpha beta : Int) (tt : TT Move) (n : Nat)
    (hp : probeTT tt (R.key P) (d' + 1) alpha beta = none)
    (hg : R.is_game_over P = false) (hm : R.legal_moves P = []) :
    (negamax R (d' + 1) P alpha beta tt n).score = -9999999 := by
  rw [negamax_full R d' P alpha beta tt n hp hg]
  simp [hm, sortCaptures, negaLoop]

/-- Witness for C7: `R7` has no legal moves anywhere, is never game
over, and its depth-1 search returns the sentinel. -/
theorem C7_empty_moves_sentinel_witness :
    R7.legal_moves 0 = [] ∧ R7.is_game_over 0 = false ∧
    (negamax R7 1 0 (-100) 100 (ttEmpty Nat) 0).score = -9999999 :=
  ⟨rfl, rfl, C7_empty_moves_sentinel R7 0 0 (-100) 100 (ttEmpty Nat) 0 rfl rfl rfl⟩

/-- Claim C9: `negamax` terminates for every position and every depth —
it is a total function of the embedding, defined by structural recursion
on `depth` with the recursive call at `depth - 1` under the `depth ≠ 0`
guard — and the ghost `srdepth` field, which counts the stack frames the
call tree uses (1 for a non-recursing call), is bounded by `depth + 1`:
the nesting of recursive calls below the initial one never exceeds the
depth argument. -/
theorem C9_recursion_depth_bounded {Pos Move : Type} (R : Rules Pos Move) (d : Nat) :
    ∀ (P : Pos) (alpha beta : Int) (tt : TT Move) (n : Nat),
      (negamax R d P alpha beta tt n).srdepth ≤ d + 1 := by
  induction d with
  | zero =>
    intro P alpha beta tt n
    rw [negamax.eq_def]; dsimp only
    split
    · exact le_refl 1
    · exact le_refl 1
  | succ d ih =>
    intro P alpha beta tt n
    rw [negamax.eq_def]; dsimp only
    split
    · exact Nat.le_add_left 1 (d + 1)
    · split
      · exact Nat.le_add_left 1 (d + 1)
      · have h := negaLoop_msd_le (fun mv a b t nn => negamax R d (R.child P mv) a b t nn)
          beta (d + 1) (fun mv a b t nn => ih (R.child P mv) a b t nn)
          (sortCaptures (R.is_capture P) (R.legal_moves P)) (-9999999) none alpha tt (n + 1) 0
          (Nat.zero_le _)
        dsimp only
        omega

/-- Claim C4 counterexample: ordering the root moves `[1, 2]` (where
only 2 is a capture) with hint move 1 puts the capture 2 first, not the
hint — because `search_root` sorts captures first *after* inserting the
hint at index 0 — refuting "the resulting ordered sequence has the hint
move first". -/
theorem C4_counterexample_hint_not_first :
    ¬ ((order_root (fun m => decide (m = 2)) [1, 2] (some (1 : Nat))).head? = some 1) := by
  decide

/-- Claim C4 (amended): when the hint is a member of the legal list, the
root order splits into all captures followed by all non-captures, and
the hint leads its own class: it is first overall when it is a capture,
and the first non-capture otherwise. -/
theorem C4_order_root_classes {Move : Type} [DecidableEq Move] (isc : Move → Bool)
    (moves : List Move) (h : Move) (hmem : h ∈ moves) :
    ∃ caps quiets, order_root isc moves (some h) = caps ++ quiets ∧
      (∀ m ∈ caps, isc m = true) ∧ (∀ m ∈ quiets, isc m = false) ∧
      (isc h = true → caps.head? = some h) ∧
      (isc h = false → quiets.head? = some h) := by
  refine ⟨(h :: moves.erase h).filter isc,
    (h :: moves.erase h).filter (fun m => !(isc m)), ?_, ?_, ?_, ?_, ?_⟩
  · simp [order_root, hmem, sortCaptures]
  · intro m hm; exact (List.mem_filter.mp hm).2
  · intro m hm; simpa using (List.mem_filter.mp hm).2
  · intro hc; simp [List.filter_cons, hc]
  · intro hc; simp [List.filter_cons, hc]

/-- Witness for C4: hint 2 is a capture and leads the ordered list. -/
theorem C4_order_root_classes_witness :
    (2 : Nat) ∈ [1, 2] ∧
    ∃ caps quiets, order_root (fun m => decide (m = 2)) [1, 2] (some (2 : Nat))
        = caps ++ quiets ∧
      (∀ m ∈ caps, (fun m => decide (m = 2)) m = true) ∧
      (∀ m ∈ quiets, (fun m => decide (m = 2)) m = false) ∧
      ((fun m => decide (m = 2)) 2 = true → caps.head? = some 2) ∧
      ((fun m => decide (m = 2)) 2 = false → quiets.head? = some 2) :=
  ⟨by decide, C4_order_root_classes (fun m => decide (m = 2)) [1, 2] 2 (by decide)⟩

/-- Claim C5 counterexample: when the search produced no move but the
root has the legal move 5, `think_thread_fn` does not emit the null-move
encoding — it substitutes a legal move — refuting the claim. -/
theorem C5_counterexample_random_substituted :
    think_emit (none : Option Nat) [5] 0 ≠ none := by decide

/-- Claim C5 (amended): when the search returns no move, the controller
result being `none`, `think_thread_fn` emits the null-move encoding
`'0000'` only when the root has no legal moves; when legal moves exist
it substitutes one of them (drawn by `random.choice`), and exactly one
best-move payload is produced either way. -/
theorem C5_no_move_fallback {Move : Type} (best : Option Move) (legal : List Move)
    (r : Nat) (hb : best = none) :
    (legal = [] → think_emit best legal r = none) ∧
    (legal ≠ [] → ∃ m, m ∈ legal ∧ think_emit best legal r = some m) := by
  subst hb
  constructor
  · intro hl; subst hl; rfl
  · intro hl
    match legal, hl with
    | (x :: xs), _ =>
      have hlt : r % (x :: xs).length < (x :: xs).length := Nat.mod_lt _ (by simp)
      refine ⟨(x :: xs).get ⟨r % (x :: xs).length, hlt⟩, List.get_mem _ _ _, ?_⟩
      simp [think_emit, List.get?_eq_get hlt]

/-- Witness for C5: with no search result and the single legal move 7,
the emitted payload is a legal move (never the null encoding). -/
theorem C5_no_move_fallback_witness :
    (none : Option Nat) = none ∧
    ((([7] : List Nat) = [] → think_emit (none : Option Nat) [7] 0 = none) ∧
     (([7] : List Nat) ≠ [] →
       ∃ m, m ∈ ([7] : List Nat) ∧ think_emit (none : Option Nat) [7] 0 = some m)) :=
  ⟨rfl, C5_no_move_fallback (none : Option Nat) [7] 0 rfl⟩

/-- Claim C6 (evidence of the code bug): replaying `position` moves has
no exception handler, so on the command list
`[position base=0 [e2e4, xx, e2e4], isready]` the board stops at the
last successfully applied state (1), no reply is emitted for the
`position` command, and the loop dies: the subsequent `isready` is never
answered — while the same `isready` alone is answered `readyok`. -/
theorem C6_illegal_move_kills_loop :
    uci_run apC6 99 [Cmd.position 0 ["e2e4", "xx", "e2e4"], Cmd.isready] = (1, [])
      ∧ uci_run apC6 99 [Cmd.isready] = (99, ["readyok"]) := by
  refine ⟨by decide, by decide⟩

/-- Claim C8 (evidence of the code bug): the `ucinewgame` handler clears
the TT and resets the board with neither a cancellation request nor a
join of the think thread, whereas the `go`, `stop` and `quit` handlers
do set the stop flag and join before any further action. -/
theorem C8_ucinewgame_skips_join :
    Act.clear_tt ∈ handler_ucinewgame ∧ Act.reset_board ∈ handler_ucinewgame ∧
    Act.join_thread ∉ handler_ucinewgame ∧ Act.set_stop ∉ handler_ucinewgame ∧
    handler_go true = [Act.set_stop, Act.join_thread, Act.spawn_think] ∧
    handler_stop true = [Act.set_stop, Act.join_thread] ∧
    handler_quit true = [Act.set_stop, Act.join_thread] := by
  decide

end MiniUci
